import Mathlib

/-!
# Verification of the `PlayerRecords` store (`src/player_records.rs`)

A shallow embedding of the persistent player-record store: the JSON value
model, the `PlayerRecord` / `Verdict` data model, the store operations
(`load_from`, `save`, `load_or_create`, `update_name`, `is_empty`), and the
serde-derived serialization/deserialization of the persisted format.

Modelling conventions:
* `SteamID` is an opaque 64-bit-class identifier; it is modelled as `Nat`.
  serde_json writes integral map keys as decimal strings and parses them
  back, which is modelled by `natKeyString` / `parseNatKey`.
* `chrono::DateTime<Utc>` timestamps are opaque to this module (the store
  never inspects them); they are modelled as `Nat` with an injective
  round-tripping JSON encoding, standing in for chrono's RFC-3339 serde.
* `HashMap<SteamID, PlayerRecord>` is modelled as an association list with
  pairwise-distinct keys (a real `HashMap` cannot hold duplicate keys);
  deserialization inserts entries with replace-on-collision semantics, as
  serde's `HashMap` visitor does.
* The file system is a function from paths (strings, matching the
  `to_string_lossy` form carried in errors) to a `FileState`: the file may
  be absent, unreadable (an I/O failure other than not-found), readable but
  not valid JSON, or readable with a parsed JSON value.  `std::fs` calls and
  `serde_json::from_str` / `to_string` are modelled at that level.
* `panic!` in `load_or_create` is modelled by returning `none`.
* `ConfigFilesError` (declared in `settings.rs`, outside this module) has
  the two variants used here: `IO(String, std::io::Error)` and
  `Json(String, serde_json::Error)`; the `io::Error` payload is reduced to
  the only attribute the code inspects, its `ErrorKind`.
-/

namespace PlayerRecordsSpec

/-- The `serde_json::Value` tree (numbers reduced to integers; the float
variants of `serde_json::Number` are not used by any property below). -/
inductive Json where
  | null : Json
  | bool (b : Bool) : Json
  | num (n : Int) : Json
  | str (s : String) : Json
  | arr (items : List Json) : Json
  | obj (fields : List (String × Json)) : Json

/-- `serde_json::Value::is_null`. -/
def Json.is_null : Json → Bool
  | .null => true
  | _ => false

/-- `serde_json::Value::as_object` (an `Option` of the field list). -/
def Json.as_object : Json → Option (List (String × Json))
  | .obj fields => some fields
  | _ => none

/-- `serde_json::Value::as_array`. -/
def Json.as_array : Json → Option (List Json)
  | .arr items => some items
  | _ => none

/-- `serde_json::Value::as_str`. -/
def Json.as_str : Json → Option String
  | .str s => some s
  | _ => none

/-- The `Verdict` enum: what a player is marked as in the playerlist. -/
inductive Verdict where
  | Player : Verdict
  | Bot : Verdict
  | Suspicious : Verdict
  | Cheater : Verdict
  | Trusted : Verdict
deriving DecidableEq

/-- `impl Default for Verdict`: the neutral state `Player`. -/
def Verdict.default : Verdict := .Player

/-- `default_custom_data()`: an empty JSON object. -/
def default_custom_data : Json := .obj []

/-- A `PlayerRecord`: one player's stored moderation data.  Timestamps are
opaque `Nat` stand-ins for `DateTime<Utc>`. -/
structure PlayerRecord where
  custom_data : Json
  verdict : Verdict
  previous_names : List String
  modified : Nat
  created : Nat

/-- `impl Default for PlayerRecord`, with `default_date()`, i.e. `Utc::now()`,
passed in as the parameter `now`. -/
def PlayerRecord.defaultRecord (now : Nat) : PlayerRecord :=
  { custom_data := default_custom_data
    verdict := Verdict.default
    previous_names := []
    modified := now
    created := now }

/-- `PlayerRecord::is_empty`: true iff the record holds no meaningful
information. -/
def PlayerRecord.is_empty (r : PlayerRecord) : Bool :=
  r.verdict == Verdict.Player &&
    (r.custom_data.is_null
      || (r.custom_data.as_object.any fun m => m.isEmpty)
      || (r.custom_data.as_array.any fun a => a.isEmpty)
      || (r.custom_data.as_str.any fun s => s.isEmpty))

/-- The `PlayerRecords` store: the backing file path (held only in memory,
`#[serde(skip)]`) and the identifier → record map, as an association list. -/
structure PlayerRecords where
  path : String
  records : List (Nat × PlayerRecord)

/-- `HashMap::get` on the association-list model: the value at the (unique)
matching key. -/
def lookupKey : List (Nat × PlayerRecord) → Nat → Option PlayerRecord
  | [], _ => none
  | (k, v) :: rest, key => if k = key then some v else lookupKey rest key

/-- `PlayerRecords::update_name`: if a record exists for the steamid, append
the name to its `previous_names` unless it is already present. -/
def PlayerRecords.update_name (pr : PlayerRecords) (steamid : Nat)
    (name : String) : PlayerRecords :=
  { pr with
    records := pr.records.map fun kv =>
      if kv.1 = steamid then
        (kv.1,
          if name ∈ kv.2.previous_names then kv.2
          else { kv.2 with previous_names := kv.2.previous_names ++ [name] })
      else kv }

/-! ## Serialization of the persisted format

serde's derived `Serialize`/`Deserialize` for `PlayerRecords` (the `path`
field is `#[serde(skip)]`) and for `PlayerRecord` (`#[serde(default)]`:
every missing field falls back to the corresponding field of
`PlayerRecord::default()`), plus serde_json's decimal-string encoding of
integral map keys. -/

/-- Decimal digits of `n`, most significant first, via structural recursion
on a fuel argument (`fuel > n` suffices). -/
def digitsFuel : Nat → Nat → List Nat
  | 0, _ => []
  | fuel + 1, n => if n < 10 then [n] else digitsFuel fuel (n / 10) ++ [n % 10]

/-- serde_json writes an integral map key as its decimal string. -/
def natKeyString (n : Nat) : String :=
  String.mk ((digitsFuel (n + 1) n).map fun d => Char.ofNat (d + 48))

/-- serde_json parses an integral map key back from a non-empty all-digit
string (`u64` deserialization from a map-key string). -/
def parseNatKey (s : String) : Option Nat :=
  match s.data with
  | [] => none
  | cs =>
    if cs.all (fun c => c.isDigit) then
      some (cs.foldl (fun acc c => acc * 10 + (c.toNat - 48)) 0)
    else none

/-- The serde name of each `Verdict` case (derived `Serialize`). -/
def verdictString : Verdict → String
  | .Player => "Player"
  | .Bot => "Bot"
  | .Suspicious => "Suspicious"
  | .Cheater => "Cheater"
  | .Trusted => "Trusted"

/-- Derived `Deserialize` for `Verdict`: exactly the five case-sensitive
names are accepted. -/
def verdictOfString : String → Option Verdict
  | "Player" => some .Player
  | "Bot" => some .Bot
  | "Suspicious" => some .Suspicious
  | "Cheater" => some .Cheater
  | "Trusted" => some .Trusted
  | _ => none

/-- The opaque timestamp encoding (standing in for chrono's RFC-3339 serde
string, which round-trips injectively). -/
def dateToJson (d : Nat) : Json := .num (Int.ofNat d)

/-- Inverse of `dateToJson`: parsing an encoded timestamp. -/
def dateFromJson : Json → Option Nat
  | .num (Int.ofNat n) => some n
  | _ => none

/-- The serialized field list of a `PlayerRecord` (derived `Serialize`,
declaration order of the struct fields). -/
def recordFields (r : PlayerRecord) : List (String × Json) :=
  [("custom_data", r.custom_data),
   ("verdict", .str (verdictString r.verdict)),
   ("previous_names", .arr (r.previous_names.map Json.str)),
   ("modified", dateToJson r.modified),
   ("created", dateToJson r.created)]

/-- Derived `Serialize` for `PlayerRecord`: a JSON object of its fields. -/
def recordToJson (r : PlayerRecord) : Json := .obj (recordFields r)

/-- Field access in a deserialized JSON object. -/
def getField : List (String × Json) → String → Option Json
  | [], _ => none
  | (k, v) :: rest, key => if k = key then some v else getField rest key

/-- Deserializing a `Vec<Arc<str>>`: every element must be a JSON string. -/
def decodeStrings : List Json → Option (List String)
  | [] => some []
  | .str s :: rest => (decodeStrings rest).map fun tail => s :: tail
  | _ => none

/-- Derived `Deserialize` for `PlayerRecord` with `#[serde(default)]`: a
JSON object; each missing field falls back to the matching field of
`PlayerRecord::default()` (whose `default_date()` calls are the parameter
`now`); a present field that does not parse fails the whole record; unknown
fields are ignored. -/
def decodeRecord (now : Nat) : Json → Option PlayerRecord
  | .obj fields => do
    let custom_data := (getField fields "custom_data").getD default_custom_data
    let verdict ←
      match getField fields "verdict" with
      | none => some Verdict.default
      | some (.str s) => verdictOfString s
      | some _ => none
    let previous_names ←
      match getField fields "previous_names" with
      | none => some []
      | some (.arr items) => decodeStrings items
      | some _ => none
    let modified ←
      match getField fields "modified" with
      | none => some now
      | some j => dateFromJson j
    let created ←
      match getField fields "created" with
      | none => some now
      | some j => dateFromJson j
    some { custom_data, verdict, previous_names, modified, created }
  | _ => none

/-- `HashMap::insert` on the association-list model: replace the entry in
place when the key is present, append otherwise. -/
def insertRecord (m : List (Nat × PlayerRecord)) (k : Nat)
    (v : PlayerRecord) : List (Nat × PlayerRecord) :=
  if m.any fun kv => kv.1 = k then
    m.map fun kv => if kv.1 = k then (k, v) else kv
  else m ++ [(k, v)]

/-- serde's `HashMap` visitor: parse each key and value in file order,
inserting as it goes; any unparseable key or record fails the whole map. -/
def decodeRecords (now : Nat) :
    List (String × Json) → List (Nat × PlayerRecord) →
    Option (List (Nat × PlayerRecord))
  | [], acc => some acc
  | (ks, jv) :: rest, acc =>
    match parseNatKey ks, decodeRecord now jv with
    | some k, some r => decodeRecords now rest (insertRecord acc k r)
    | _, _ => none

/-- Derived `Deserialize` for `PlayerRecords`: a JSON object whose required
`records` field is an object of identifier/record entries; the skipped
`path` field takes `PathBuf::default()` (empty).  Unknown fields are
ignored. -/
def decodeStore (now : Nat) : Json → Option PlayerRecords
  | .obj fields =>
    match getField fields "records" with
    | some (.obj entries) =>
      (decodeRecords now entries []).map fun records =>
        { path := "", records }
    | _ => none
  | _ => none

/-- Derived `Serialize` for `PlayerRecords`: `path` is skipped, so the file
is a single object with the one field `records`. -/
def encodeStore (pr : PlayerRecords) : Json :=
  .obj [("records",
    .obj (pr.records.map fun kv => (natKeyString kv.1, recordToJson kv.2)))]

/-! ## File system model and the store's load/save operations -/

/-- What `std::fs::read_to_string` followed by `serde_json::from_str` can
observe at one path. -/
inductive FileState where
  | absent : FileState
  | ioFailure : FileState
  | invalidText : FileState
  | content (j : Json) : FileState

/-- The file system: path → state. -/
def FS : Type := String → FileState

/-- The `ErrorKind` distinction the code makes on `std::io::Error`. -/
inductive IOKind where
  | notFound : IOKind
  | otherKind : IOKind
deriving DecidableEq

/-- `ConfigFilesError` (from `settings.rs`): the `IO(path, e)` and
`Json(path, e)` variants, the `io::Error` reduced to its kind. -/
inductive ConfigFilesError where
  | io (path : String) (kind : IOKind) : ConfigFilesError
  | json (path : String) : ConfigFilesError

/-- The path string carried by every `ConfigFilesError`. -/
def ConfigFilesError.errPath : ConfigFilesError → String
  | .io p _ => p
  | .json p => p

/-- The normalization pass of `load_from`: a null `custom_data` (written by
old versions) is replaced with an empty object. -/
def normalizeRecord (r : PlayerRecord) : PlayerRecord :=
  if r.custom_data.is_null then { r with custom_data := .obj [] } else r

/-- `PlayerRecords::load_from`: read the file, parse it, bind the store to
the path, then run the normalization pass over every record. -/
def load_from (fs : FS) (now : Nat) (path : String) :
    Except ConfigFilesError PlayerRecords :=
  match fs path with
  | .absent => .error (.io path .notFound)
  | .ioFailure => .error (.io path .otherKind)
  | .invalidText => .error (.json path)
  | .content j =>
    match decodeStore now j with
    | none => .error (.json path)
    | some pl =>
      .ok { path
            records := pl.records.map fun kv => (kv.1, normalizeRecord kv.2) }

/-- `PlayerRecords::save`: serialize the store and write it to the bound
path (serialization of this data never fails; the write replaces the
previous state of the path). -/
def save (pr : PlayerRecords) (fs : FS) : FS :=
  fun p => if p = pr.path then .content (encodeStore pr) else fs p

/-- `PlayerRecords::load_or_create` after path resolution: `load_from` the
resolved path; on a not-found I/O error, a fresh default store re-bound to
that path; on any other error, `panic!` (modelled as `none`). -/
def load_or_create (fs : FS) (now : Nat) (path : String) :
    Option PlayerRecords :=
  match load_from fs now path with
  | .ok playerlist => some playerlist
  | .error (.json _) => none
  | .error (.io p .notFound) => some { path := p, records := [] }
  | .error (.io _ .otherKind) => none

/-! ## Round-trip lemmas for the persisted format -/

theorem digitChar_isDigit (d : Nat) (h : d < 10) :
    (Char.ofNat (d + 48)).isDigit = true := by
  interval_cases d <;> decide

theorem digitChar_toNat (d : Nat) (h : d < 10) :
    (Char.ofNat (d + 48)).toNat = d + 48 := by
  interval_cases d <;> decide

theorem digitsFuel_sound (fuel : Nat) :
    ∀ n, n < fuel →
      (∀ d ∈ digitsFuel fuel n, d < 10) ∧
      (∀ a : Nat,
        (digitsFuel fuel n).foldl (fun acc d => acc * 10 + d) a =
          a * 10 ^ (digitsFuel fuel n).length + n) ∧
      digitsFuel fuel n ≠ [] := by
  induction fuel with
  | zero => intro n h; omega
  | succ fuel ih =>
    intro n h
    by_cases hn : n < 10
    · refine ⟨?_, ?_, ?_⟩
      · intro d hdm
        simp only [digitsFuel, if_pos hn, List.mem_singleton] at hdm
        omega
      · intro a
        simp only [digitsFuel, if_pos hn, List.foldl_cons, List.foldl_nil,
          List.length_singleton, pow_one]
      · simp [digitsFuel, hn]
    · have hdiv : n / 10 < fuel := by omega
      obtain ⟨hd, hf, hne⟩ := ih (n / 10) hdiv
      have hstep : digitsFuel (fuel + 1) n =
          digitsFuel fuel (n / 10) ++ [n % 10] := by
        simp [digitsFuel, hn]
      refine ⟨?_, ?_, ?_⟩
      · intro d hdm
        rw [hstep] at hdm
        rcases List.mem_append.mp hdm with hmem | hmem
        · exact hd d hmem
        · simp only [List.mem_singleton] at hmem
          omega
      · intro a
        rw [hstep, List.foldl_append, hf a, List.length_append,
          List.length_singleton]
        simp only [List.foldl_cons, List.foldl_nil]
        have : a * 10 ^ (List.length (digitsFuel fuel (n / 10)) + 1) =
            a * 10 ^ List.length (digitsFuel fuel (n / 10)) * 10 := by
          ring
        rw [this]
        omega
      · rw [hstep]
        simp

theorem parseNatKey_eq_of_ne_nil (s : String) (h : s.data ≠ []) :
    parseNatKey s =
      if s.data.all (fun c => c.isDigit) then
        some (s.data.foldl (fun acc c => acc * 10 + (c.toNat - 48)) 0)
      else none := by
  unfold parseNatKey
  obtain ⟨c, cs, hc⟩ := List.exists_cons_of_ne_nil h
  rw [hc]

theorem parse_natKeyString (n : Nat) : parseNatKey (natKeyString n) = some n := by
  obtain ⟨hd, hf, hne⟩ := digitsFuel_sound (n + 1) n (Nat.lt_succ_self n)
  have hdata : (natKeyString n).data =
      (digitsFuel (n + 1) n).map fun d => Char.ofNat (d + 48) := rfl
  rw [parseNatKey_eq_of_ne_nil _ (by rw [hdata]; simpa using hne), hdata]
  have hall : (((digitsFuel (n + 1) n).map fun d => Char.ofNat (d + 48)).all
      fun c => c.isDigit) = true := by
    rw [List.all_eq_true]
    intro c hc
    obtain ⟨e, he, hce⟩ := List.mem_map.mp hc
    subst hce
    exact digitChar_isDigit e (hd e he)
  rw [if_pos hall]
  congr 1
  rw [List.foldl_map]
  rw [List.foldl_ext (fun acc e => acc * 10 + ((Char.ofNat (e + 48)).toNat - 48))
    (fun acc e => acc * 10 + e) 0 ?_]
  · rw [hf 0]
    omega
  · intro a e he
    simp only []
    rw [digitChar_toNat e (hd e he)]
    omega

theorem verdictOfString_verdictString (v : Verdict) :
    verdictOfString (verdictString v) = some v := by
  cases v <;> rfl

theorem decodeStrings_map_str (names : List String) :
    decodeStrings (names.map Json.str) = some names := by
  induction names with
  | nil => rfl
  | cons s rest ih => simp [decodeStrings, ih]

theorem decodeRecord_recordToJson (now : Nat) (r : PlayerRecord) :
    decodeRecord now (recordToJson r) = some r := by
  simp [decodeRecord, recordToJson, recordFields, getField,
    verdictOfString_verdictString, decodeStrings_map_str, dateToJson,
    dateFromJson]

theorem insertRecord_fresh (m : List (Nat × PlayerRecord)) (k : Nat)
    (v : PlayerRecord) (h : ∀ kv ∈ m, kv.1 ≠ k) :
    insertRecord m k v = m ++ [(k, v)] := by
  unfold insertRecord
  rw [if_neg]
  simp only [List.any_eq_true, not_exists, not_and]
  intro kv hkv
  simpa using h kv hkv

theorem decodeRecords_encoded (now : Nat) :
    ∀ (rs acc : List (Nat × PlayerRecord)),
      (rs.map Prod.fst).Nodup →
      (∀ kv ∈ acc, ∀ kv' ∈ rs, kv.1 ≠ kv'.1) →
      decodeRecords now
        (rs.map fun kv => (natKeyString kv.1, recordToJson kv.2)) acc =
        some (acc ++ rs) := by
  intro rs
  induction rs with
  | nil => intro acc _ _; simp [decodeRecords]
  | cons kv rest ih =>
    intro acc hnodup hdisj
    obtain ⟨k, r⟩ := kv
    simp only [List.map_cons, decodeRecords, parse_natKeyString,
      decodeRecord_recordToJson]
    rw [insertRecord_fresh acc k r
      (fun kv' hkv' => hdisj kv' hkv' (k, r) (List.mem_cons_self _ _))]
    rw [List.map_cons, List.nodup_cons] at hnodup
    rw [ih (acc ++ [(k, r)]) hnodup.2 ?_]
    · simp
    · intro kv' hkv' kv'' hkv''
      rcases List.mem_append.mp hkv' with hmem | hmem
      · exact hdisj kv' hmem kv'' (List.mem_cons_of_mem _ hkv'')
      · simp only [List.mem_singleton] at hmem
        subst hmem
        intro hkk
        exact hnodup.1 (hkk ▸ List.mem_map_of_mem Prod.fst hkv'')

theorem decodeStore_encodeStore (now : Nat) (pr : PlayerRecords)
    (h : (pr.records.map Prod.fst).Nodup) :
    decodeStore now (encodeStore pr) = some { path := "", records := pr.records } := by
  simp only [decodeStore, encodeStore, getField, if_pos]
  rw [decodeRecords_encoded now pr.records [] h (by simp)]
  rfl

/-- A record whose `custom_data` is not null is a fixed point of the
normalization pass. -/
theorem normalizeRecord_of_not_null (r : PlayerRecord)
    (h : r.custom_data.is_null = false) : normalizeRecord r = r := by
  unfold normalizeRecord
  rw [h]
  rfl

/-- Mapping the normalization pass over a store whose records all have
non-null `custom_data` changes nothing. -/
theorem normalize_map_of_not_null (rs : List (Nat × PlayerRecord))
    (h : ∀ kv ∈ rs, kv.2.custom_data.is_null = false) :
    (rs.map fun kv => (kv.1, normalizeRecord kv.2)) = rs := by
  conv_rhs => rw [← List.map_id rs]
  apply List.map_congr_left
  intro kv hkv
  rw [normalizeRecord_of_not_null kv.2 (h kv hkv)]
  rfl

/-- Reading the path just written by `save` yields the serialized store. -/
theorem save_read_back (pr : PlayerRecords) (fs : FS) :
    save pr fs pr.path = .content (encodeStore pr) := by
  unfold save
  rw [if_pos rfl]

/-- C1: Saving a store whose identifiers are pairwise distinct and whose
records all have non-null `custom_data`, then loading from the same path,
succeeds and yields a store with the very same record map (hence the same
identifiers, verdicts, `previous_names` in order, and `custom_data`); this
holds in particular for every non-empty such map. -/
theorem save_load_roundtrip (pr : PlayerRecords) (fs : FS) (now : Nat)
    (hkeys : (pr.records.map Prod.fst).Nodup)
    (hnull : ∀ kv ∈ pr.records, kv.2.custom_data.is_null = false)
    (hne : pr.records ≠ []) :
    load_from (save pr fs) now pr.path =
      .ok { path := pr.path, records := pr.records } := by
  unfold load_from
  rw [save_read_back pr fs]
  simp only []
  rw [decodeStore_encodeStore now pr hkeys]
  simp only []
  rw [normalize_map_of_not_null pr.records hnull]

/-- Witness for C1 at a concrete two-record store covering distinct
verdicts, names and custom data. -/
theorem save_load_roundtrip_witness :
    load_from
      (save
        { path := "pl.json"
          records :=
            [(76561198000000001,
              { custom_data := .obj [("note", .str "x")]
                verdict := .Cheater
                previous_names := ["alpha", "beta"]
                modified := 3
                created := 2 }),
             (2,
              { custom_data := .str ""
                verdict := .Trusted
                previous_names := []
                modified := 0
                created := 0 })] }
        fun _ => .absent)
      7 "pl.json" =
      .ok
        { path := "pl.json"
          records :=
            [(76561198000000001,
              { custom_data := .obj [("note", .str "x")]
                verdict := .Cheater
                previous_names := ["alpha", "beta"]
                modified := 3
                created := 2 }),
             (2,
              { custom_data := .str ""
                verdict := .Trusted
                previous_names := []
                modified := 0
                created := 0 })] } :=
  save_load_roundtrip _ _ 7 (by decide) (by decide) (by simp)

/-- C1 counterexample: a record saved with a null `custom_data` does not
load back equal in content — the normalization pass of `load_from` turns
the null into an empty object. -/
theorem save_load_roundtrip_counterexample :
    load_from
      (save
        { path := "pl.json"
          records :=
            [(1, { custom_data := .null, verdict := .Cheater,
                   previous_names := [], modified := 0, created := 0 })] }
        fun _ => .absent)
      0 "pl.json" =
      .ok
        { path := "pl.json"
          records :=
            [(1, { custom_data := .obj [], verdict := .Cheater,
                   previous_names := [], modified := 0, created := 0 })] } ∧
    Json.obj [] ≠ Json.null :=
  ⟨rfl, fun h => by cases h⟩

/-- `insertRecord` preserves distinctness of keys. -/
theorem insertRecord_nodup (m : List (Nat × PlayerRecord)) (k : Nat)
    (v : PlayerRecord) (h : (m.map Prod.fst).Nodup) :
    ((insertRecord m k v).map Prod.fst).Nodup := by
  unfold insertRecord
  by_cases hc : (m.any fun kv => kv.1 = k) = true
  · rw [if_pos hc]
    have hkeys : ((m.map fun kv => if kv.1 = k then (k, v) else kv).map
        Prod.fst) = m.map Prod.fst := by
      rw [List.map_map]
      apply List.map_congr_left
      intro kv _
      by_cases hk : kv.1 = k
      · simp [Function.comp, hk]
      · simp [Function.comp, hk]
    rw [hkeys]
    exact h
  · rw [if_neg hc]
    rw [List.map_append]
    simp only [List.map_cons, List.map_nil]
    rw [List.nodup_append_comm]
    rw [List.singleton_append, List.nodup_cons]
    refine ⟨?_, h⟩
    simp only [List.any_eq_true, decide_eq_true_eq, not_exists, not_and] at hc
    intro hmem
    obtain ⟨kv, hkv, hfst⟩ := List.mem_map.mp hmem
    exact hc kv hkv hfst

/-- Deserializing a record map yields pairwise-distinct keys (the
`HashMap` invariant). -/
theorem decodeRecords_nodup (now : Nat) :
    ∀ (entries : List (String × Json)) (acc res : List (Nat × PlayerRecord)),
      (acc.map Prod.fst).Nodup → decodeRecords now entries acc = some res →
      (res.map Prod.fst).Nodup := by
  intro entries
  induction entries with
  | nil =>
    intro acc res h heq
    simp only [decodeRecords, Option.some_inj] at heq
    exact heq ▸ h
  | cons e rest ih =>
    intro acc res h heq
    obtain ⟨ks, jv⟩ := e
    simp only [decodeRecords] at heq
    cases hpk : parseNatKey ks with
    | none =>
      rw [hpk] at heq
      exact absurd heq (by simp)
    | some k =>
      cases hdr : decodeRecord now jv with
      | none =>
        rw [hpk, hdr] at heq
        exact absurd heq (by simp)
      | some r =>
        rw [hpk, hdr] at heq
        simp only [] at heq
        exact ih (insertRecord acc k r) res (insertRecord_nodup acc k r h) heq

/-- Deserializing a whole store yields pairwise-distinct identifiers. -/
theorem decodeStore_nodup (now : Nat) (j : Json) (pl : PlayerRecords)
    (h : decodeStore now j = some pl) : (pl.records.map Prod.fst).Nodup := by
  unfold decodeStore at h
  cases j with
  | obj fields =>
    simp only [] at h
    cases hg : getField fields "records" with
    | none =>
      rw [hg] at h
      exact absurd h (by simp)
    | some jr =>
      cases jr with
      | obj entries =>
        rw [hg] at h
        simp only [Option.map_eq_some'] at h
        obtain ⟨recs, hrecs, hpl⟩ := h
        rw [← hpl]
        exact decodeRecords_nodup now entries [] recs (by simp) hrecs
      | null => rw [hg] at h; exact absurd h (by simp)
      | bool b => rw [hg] at h; exact absurd h (by simp)
      | num n => rw [hg] at h; exact absurd h (by simp)
      | str s => rw [hg] at h; exact absurd h (by simp)
      | arr items => rw [hg] at h; exact absurd h (by simp)
  | null => exact absurd h (by simp)
  | bool b => exact absurd h (by simp)
  | num n => exact absurd h (by simp)
  | str s => exact absurd h (by simp)
  | arr items => exact absurd h (by simp)

/-- The normalization pass never leaves a null `custom_data`. -/
theorem normalizeRecord_not_null (r : PlayerRecord) :
    (normalizeRecord r).custom_data.is_null = false := by
  unfold normalizeRecord
  split
  · rfl
  · next h => simpa using h

/-- Mapping the normalization pass preserves the key sequence. -/
theorem map_normalize_keys (rs : List (Nat × PlayerRecord)) :
    ((rs.map fun kv => (kv.1, normalizeRecord kv.2)).map Prod.fst) =
      rs.map Prod.fst := by
  rw [List.map_map]
  apply List.map_congr_left
  intro kv _
  rfl

/-- Every successful `load_from` yields a store bound to the requested
path, with pairwise-distinct identifiers and no null `custom_data`. -/
theorem load_from_ok_shape (fs : FS) (now : Nat) (p : String)
    (pl : PlayerRecords) (h : load_from fs now p = .ok pl) :
    pl.path = p ∧ (pl.records.map Prod.fst).Nodup ∧
      ∀ kv ∈ pl.records, kv.2.custom_data.is_null = false := by
  unfold load_from at h
  cases hfs : fs p with
  | absent => rw [hfs] at h; exact absurd h (by simp)
  | ioFailure => rw [hfs] at h; exact absurd h (by simp)
  | invalidText => rw [hfs] at h; exact absurd h (by simp)
  | content j =>
    rw [hfs] at h
    simp only [] at h
    cases hds : decodeStore now j with
    | none =>
      rw [hds] at h
      exact absurd h (by simp)
    | some pl0 =>
      rw [hds] at h
      simp only [Except.ok.injEq] at h
      subst h
      refine ⟨rfl, ?_, ?_⟩
      · rw [map_normalize_keys]
        exact decodeStore_nodup now j pl0 hds
      · intro kv hkv
        obtain ⟨kv0, _, hkv0⟩ := List.mem_map.mp hkv
        rw [← hkv0]
        exact normalizeRecord_not_null kv0.2

/-- C5: After any successful `load_from`, no record has a null
`custom_data`; and the normalization is a stable fixed point — saving the
loaded store and loading it again from its bound path yields the very same
records. -/
theorem load_normalized_fixed_point (fs : FS) (now : Nat) (p : String)
    (pl : PlayerRecords) (h : load_from fs now p = .ok pl) :
    (∀ kv ∈ pl.records, kv.2.custom_data.is_null = false) ∧
    ∀ (fs' : FS) (now' : Nat),
      load_from (save pl fs') now' pl.path =
        .ok { path := pl.path, records := pl.records } := by
  obtain ⟨_, hnodup, hnull⟩ := load_from_ok_shape fs now p pl h
  refine ⟨hnull, ?_⟩
  intro fs' now'
  unfold load_from
  rw [save_read_back pl fs']
  simp only []
  rw [decodeStore_encodeStore now' pl hnodup]
  simp only []
  rw [normalize_map_of_not_null pl.records hnull]

/-- Witness for C5: a file whose one record carries a literally null
`custom_data` loads with an empty object there, and saving then reloading
that result reproduces it exactly. -/
theorem load_normalized_fixed_point_witness :
    load_from
      (save
        { path := "q"
          records :=
            [(1, { custom_data := .obj [], verdict := .Player,
                   previous_names := [], modified := 5, created := 5 })] }
        fun _ => .absent)
      6 "q" =
      .ok
        { path := "q"
          records :=
            [(1, { custom_data := .obj [], verdict := .Player,
                   previous_names := [], modified := 5, created := 5 })] } :=
  (load_normalized_fixed_point
    (fun _ => .content (.obj [("records",
      .obj [("1", .obj [("custom_data", .null)])])]))
    5 "q"
    { path := "q"
      records :=
        [(1, { custom_data := .obj [], verdict := .Player,
               previous_names := [], modified := 5, created := 5 })] }
    rfl).2 (fun _ => .absent) 6

/-- C2: `load_or_create` on a path whose file does not exist returns the
empty default store bound to that path; when the internal load fails for
any other reason it aborts the process (modelled as `none`). -/
theorem load_or_create_spec (fs : FS) (now : Nat) (p : String) :
    (fs p = .absent →
      load_or_create fs now p = some { path := p, records := [] }) ∧
    ∀ e, load_from fs now p = .error e →
      (∀ q, e ≠ ConfigFilesError.io q IOKind.notFound) →
      load_or_create fs now p = none := by
  constructor
  · intro h
    unfold load_or_create load_from
    rw [h]
  · intro e he hne
    unfold load_or_create
    rw [he]
    cases e with
    | json q => rfl
    | io q k =>
      cases k with
      | notFound => exact absurd rfl (hne q)
      | otherKind => rfl

/-- Witness for C2: an absent file yields the empty store; a file that is
not valid JSON makes `load_or_create` abort. -/
theorem load_or_create_spec_witness :
    load_or_create (fun _ => .absent) 0 "w" = some { path := "w", records := [] } ∧
    load_or_create (fun _ => .invalidText) 0 "w" = none :=
  ⟨(load_or_create_spec (fun _ => .absent) 0 "w").1 rfl,
   (load_or_create_spec (fun _ => .invalidText) 0 "w").2
     (ConfigFilesError.json "w") rfl (fun q h => by cases h)⟩

/-- C7: `load_from` fails with an I/O-kind error carrying the path when the
file cannot be read (not-found distinguished from other I/O failures), with
a format-kind error carrying the path when the contents are not valid
structured data or do not decode, every failure carries the path, and the
failure kinds are distinguishable. -/
theorem load_from_error_kinds (fs : FS) (now : Nat) (p : String) :
    (fs p = .absent → load_from fs now p = .error (.io p .notFound)) ∧
    (fs p = .ioFailure → load_from fs now p = .error (.io p .otherKind)) ∧
    (fs p = .invalidText → load_from fs now p = .error (.json p)) ∧
    (∀ j, fs p = .content j → decodeStore now j = none →
      load_from fs now p = .error (.json p)) ∧
    (∀ e, load_from fs now p = .error e → e.errPath = p) ∧
    (∀ q q' k, ConfigFilesError.io q k ≠ ConfigFilesError.json q') ∧
    IOKind.notFound ≠ IOKind.otherKind := by
  refine ⟨?_, ?_, ?_, ?_, ?_, ?_, ?_⟩
  · intro h
    unfold load_from
    rw [h]
  · intro h
    unfold load_from
    rw [h]
  · intro h
    unfold load_from
    rw [h]
  · intro j hj hd
    unfold load_from
    rw [hj]
    simp only []
    rw [hd]
  · intro e he
    unfold load_from at he
    cases hfs : fs p with
    | absent =>
      rw [hfs] at he
      simp only [Except.error.injEq] at he
      rw [← he]
      rfl
    | ioFailure =>
      rw [hfs] at he
      simp only [Except.error.injEq] at he
      rw [← he]
      rfl
    | invalidText =>
      rw [hfs] at he
      simp only [Except.error.injEq] at he
      rw [← he]
      rfl
    | content j =>
      rw [hfs] at he
      simp only [] at he
      cases hds : decodeStore now j with
      | none =>
        rw [hds] at he
        simp only [Except.error.injEq] at he
        rw [← he]
        rfl
      | some pl0 =>
        rw [hds] at he
        exact absurd he (by simp)
  · intro q q' k h
    cases h
  · intro h
    cases h

/-- Witness for C7: concrete file systems exercising the not-found, other
I/O, invalid-text and undecodable-content failures, and the carried path. -/
theorem load_from_error_kinds_witness :
    load_from (fun _ => .absent) 0 "w" = .error (.io "w" .notFound) ∧
    load_from (fun _ => .ioFailure) 0 "w" = .error (.io "w" .otherKind) ∧
    load_from (fun _ => .invalidText) 0 "w" = .error (.json "w") ∧
    load_from (fun _ => .content .null) 0 "w" = .error (.json "w") ∧
    (ConfigFilesError.json "w").errPath = "w" :=
  ⟨(load_from_error_kinds (fun _ => .absent) 0 "w").1 rfl,
   (load_from_error_kinds (fun _ => .ioFailure) 0 "w").2.1 rfl,
   (load_from_error_kinds (fun _ => .invalidText) 0 "w").2.2.1 rfl,
   (load_from_error_kinds (fun _ => .content .null) 0 "w").2.2.2.1 .null rfl rfl,
   (load_from_error_kinds (fun _ => .invalidText) 0 "w").2.2.2.2.1
     (ConfigFilesError.json "w")
     ((load_from_error_kinds (fun _ => .invalidText) 0 "w").2.2.1 rfl)⟩

/-! ## `update_name` lemmas -/

/-- Updating the record at one key of an association list: the looked-up
value at that key is transformed. -/
theorem lookupKey_map_if (g : PlayerRecord → PlayerRecord) (id : Nat) :
    ∀ rs : List (Nat × PlayerRecord),
      lookupKey (rs.map fun kv => if kv.1 = id then (kv.1, g kv.2) else kv)
        id = (lookupKey rs id).map g := by
  intro rs
  induction rs with
  | nil => rfl
  | cons kv rest ih =>
    obtain ⟨k, r⟩ := kv
    by_cases hk : k = id
    · subst hk
      simp only [List.map_cons]
      rw [if_true]
      simp [lookupKey, ih]
    · simp only [List.map_cons]
      rw [if_neg hk]
      simp [lookupKey, hk, ih]

/-- Updating the record at one key of an association list leaves every
other key's looked-up value unchanged. -/
theorem lookupKey_map_if_other (g : PlayerRecord → PlayerRecord) (id : Nat)
    (k : Nat) (h : k ≠ id) :
    ∀ rs : List (Nat × PlayerRecord),
      lookupKey (rs.map fun kv => if kv.1 = id then (kv.1, g kv.2) else kv)
        k = lookupKey rs k := by
  intro rs
  induction rs with
  | nil => rfl
  | cons kv rest ih =>
    obtain ⟨k', r⟩ := kv
    by_cases hk' : k' = id
    · subst hk'
      simp only [List.map_cons]
      rw [if_true]
      simp [lookupKey, Ne.symm h, ih]
    · simp only [List.map_cons]
      rw [if_neg hk']
      simp [lookupKey, hk', ih]

/-- Looking up the updated identifier after `update_name`: the record is
transformed by the append-unless-present step. -/
theorem lookupKey_update_self (pr : PlayerRecords) (id : Nat) (name : String) :
    lookupKey (pr.update_name id name).records id =
      (lookupKey pr.records id).map fun r =>
        if name ∈ r.previous_names then r
        else { r with previous_names := r.previous_names ++ [name] } :=
  lookupKey_map_if
    (fun r =>
      if name ∈ r.previous_names then r
      else { r with previous_names := r.previous_names ++ [name] })
    id pr.records

/-- Looking up any other identifier after `update_name` is unchanged. -/
theorem lookupKey_update_other (pr : PlayerRecords) (id : Nat) (name : String)
    (k : Nat) (h : k ≠ id) :
    lookupKey (pr.update_name id name).records k = lookupKey pr.records k :=
  lookupKey_map_if_other
    (fun r =>
      if name ∈ r.previous_names then r
      else { r with previous_names := r.previous_names ++ [name] })
    id k h pr.records

/-- A `lookupKey` miss means no entry carries the key. -/
theorem lookupKey_eq_none_iff (rs : List (Nat × PlayerRecord)) (id : Nat) :
    lookupKey rs id = none ↔ ∀ kv ∈ rs, kv.1 ≠ id := by
  induction rs with
  | nil => simp [lookupKey]
  | cons kv rest ih =>
    obtain ⟨k, r⟩ := kv
    by_cases hk : k = id
    · simp [lookupKey, hk]
    · simp [lookupKey, hk, ih]

/-- C3: `update_name` on an identifier with a record leaves the record
unchanged when the name is already present (exact match) and appends the
name at the end otherwise; on an identifier with no record it changes
nothing at all (and raises no error). -/
theorem update_name_spec (pr : PlayerRecords) (id : Nat) (name : String) :
    (∀ r, lookupKey pr.records id = some r → name ∈ r.previous_names →
      lookupKey (pr.update_name id name).records id = some r) ∧
    (∀ r, lookupKey pr.records id = some r → name ∉ r.previous_names →
      lookupKey (pr.update_name id name).records id =
        some { r with previous_names := r.previous_names ++ [name] }) ∧
    (lookupKey pr.records id = none → pr.update_name id name = pr) := by
  refine ⟨?_, ?_, ?_⟩
  · intro r hr hmem
    rw [lookupKey_update_self, hr]
    simp [hmem]
  · intro r hr hmem
    rw [lookupKey_update_self, hr]
    simp [hmem]
  · intro h
    have hall := (lookupKey_eq_none_iff pr.records id).mp h
    unfold PlayerRecords.update_name
    have hmap : (pr.records.map fun kv =>
        if kv.1 = id then
          (kv.1,
            if name ∈ kv.2.previous_names then kv.2
            else { kv.2 with
              previous_names := kv.2.previous_names ++ [name] })
        else kv) = pr.records := by
      conv_rhs => rw [← List.map_id pr.records]
      apply List.map_congr_left
      intro kv hkv
      rw [if_neg (hall kv hkv)]
      rfl
    rw [hmap]

/-- A concrete record used to instantiate the `update_name` theorems, as
in the worked example of the specification. -/
def sampleRecord : PlayerRecord :=
  { custom_data := .obj [("note", .str "x")]
    verdict := .Cheater
    previous_names := ["alpha"]
    modified := 0
    created := 0 }

/-- A concrete one-record store used to instantiate the `update_name`
theorems. -/
def sampleStore : PlayerRecords :=
  { path := "p", records := [(1, sampleRecord)] }

/-- Witness for C3 at a concrete store: a present name is not re-appended,
a new name is appended at the end, and a missing identifier is a no-op. -/
theorem update_name_spec_witness :
    lookupKey ((sampleStore.update_name 1 "alpha").records) 1 =
      some sampleRecord ∧
    lookupKey ((sampleStore.update_name 1 "beta").records) 1 =
      some { sampleRecord with
        previous_names := sampleRecord.previous_names ++ ["beta"] } ∧
    sampleStore.update_name 2 "beta" = sampleStore :=
  ⟨(update_name_spec sampleStore 1 "alpha").1 sampleRecord rfl (by decide),
   (update_name_spec sampleStore 1 "beta").2.1 sampleRecord rfl (by decide),
   (update_name_spec sampleStore 2 "beta").2.2 rfl⟩

/-- The append-unless-present transformation of `update_name` is
idempotent on a single record. -/
theorem appendName_idem (name : String) (r : PlayerRecord) :
    (fun s => if name ∈ s.previous_names then s
      else { s with previous_names := s.previous_names ++ [name] })
      ((fun s => if name ∈ s.previous_names then s
        else { s with previous_names := s.previous_names ++ [name] }) r) =
    (fun s => if name ∈ s.previous_names then s
      else { s with previous_names := s.previous_names ++ [name] }) r := by
  by_cases h : name ∈ r.previous_names
  · simp [h]
  · simp [h]

/-- Mapping an idempotent one-key update twice is the same as mapping it
once. -/
theorem map_if_idem (g : PlayerRecord → PlayerRecord) (id : Nat)
    (hg : ∀ r, g (g r) = g r) (rs : List (Nat × PlayerRecord)) :
    ((rs.map fun kv => if kv.1 = id then (kv.1, g kv.2) else kv).map
        fun kv => if kv.1 = id then (kv.1, g kv.2) else kv) =
      rs.map fun kv => if kv.1 = id then (kv.1, g kv.2) else kv := by
  rw [List.map_map]
  apply List.map_congr_left
  intro kv _
  by_cases hk : kv.1 = id
  · simp [Function.comp, hk, hg]
  · simp [Function.comp, hk]

/-- `update_name` is literally idempotent on the whole store. -/
theorem update_name_update_name (pr : PlayerRecords) (id : Nat)
    (name : String) :
    (pr.update_name id name).update_name id name = pr.update_name id name := by
  obtain ⟨path, rs⟩ := pr
  exact congrArg (PlayerRecords.mk path)
    (map_if_idem
      (fun s => if name ∈ s.previous_names then s
        else { s with previous_names := s.previous_names ++ [name] })
      id (appendName_idem name) rs)

/-- C4 (amended): `update_name` is idempotent; on a record holding the
name at most once (as every record built by `update_name` does), calling
it twice with the same identifier and name leaves exactly one occurrence
of the name; a name not yet present is appended after all existing
entries, preserving the prior order. -/
theorem update_name_idem (pr : PlayerRecords) (id : Nat) (name : String) :
    ((pr.update_name id name).update_name id name =
      pr.update_name id name) ∧
    (∀ r, lookupKey pr.records id = some r →
      r.previous_names.count name ≤ 1 →
      ∀ r', lookupKey
          ((pr.update_name id name).update_name id name).records id =
          some r' →
        r'.previous_names.count name = 1) ∧
    (∀ r, lookupKey pr.records id = some r → name ∉ r.previous_names →
      lookupKey (pr.update_name id name).records id =
        some { r with previous_names := r.previous_names ++ [name] }) := by
  refine ⟨update_name_update_name pr id name, ?_, ?_⟩
  · intro r hr hcount r' hr'
    rw [update_name_update_name, lookupKey_update_self, hr] at hr'
    simp only [Option.map_some', Option.some_inj] at hr'
    by_cases hmem : name ∈ r.previous_names
    · rw [if_pos hmem] at hr'
      subst hr'
      have hpos : 0 < r.previous_names.count name :=
        List.count_pos_iff.mpr hmem
      omega
    · rw [if_neg hmem] at hr'
      subst hr'
      simp only [List.count_append]
      rw [List.count_eq_zero.mpr hmem]
      simp
  · intro r hr hmem
    rw [lookupKey_update_self, hr]
    simp [hmem]

/-- C4 counterexample: on a store whose record already holds the name
twice (a state reachable by loading a file with a duplicated
`previous_names` entry), calling `update_name` twice leaves two
occurrences, not exactly one. -/
theorem update_name_idem_counterexample :
    (lookupKey
        ((({ path := "p"
             records :=
               [(1, { custom_data := .obj [], verdict := .Player,
                      previous_names := ["a", "a"], modified := 0,
                      created := 0 })] } : PlayerRecords).update_name
            1 "a").update_name 1 "a").records 1).map
      (fun r => r.previous_names.count "a") = some 2 ∧ (2 : Nat) ≠ 1 :=
  ⟨rfl, by decide⟩

/-- C8: `update_name` leaves every record's `modified`, `created`,
`verdict` and `custom_data` unchanged (and every identifier in place), and
leaves the records of all other identifiers entirely unchanged. -/
theorem update_name_frame (pr : PlayerRecords) (id : Nat) (name : String) :
    ((pr.update_name id name).records.map fun kv =>
        (kv.1, kv.2.verdict, kv.2.custom_data, kv.2.modified,
          kv.2.created)) =
      (pr.records.map fun kv =>
        (kv.1, kv.2.verdict, kv.2.custom_data, kv.2.modified,
          kv.2.created)) ∧
    ∀ k, k ≠ id →
      lookupKey (pr.update_name id name).records k =
        lookupKey pr.records k := by
  constructor
  · unfold PlayerRecords.update_name
    simp only []
    rw [List.map_map]
    apply List.map_congr_left
    intro kv _
    by_cases hk : kv.1 = id
    · by_cases hmem : name ∈ kv.2.previous_names
      · simp [Function.comp, hk, hmem]
      · simp [Function.comp, hk, hmem]
    · simp [Function.comp, hk]
  · intro k hk
    exact lookupKey_update_other pr id name k hk

/-- Witness for C8 at the concrete sample store: all fields but
`previous_names` survive an `update_name`, and a different identifier's
record is untouched. -/
theorem update_name_frame_witness :
    ((sampleStore.update_name 1 "beta").records.map fun kv =>
        (kv.1, kv.2.verdict, kv.2.custom_data, kv.2.modified,
          kv.2.created)) =
      (sampleStore.records.map fun kv =>
        (kv.1, kv.2.verdict, kv.2.custom_data, kv.2.modified,
          kv.2.created)) ∧
    lookupKey (sampleStore.update_name 2 "beta").records 1 =
      lookupKey sampleStore.records 1 :=
  ⟨(update_name_frame sampleStore 1 "beta").1,
   (update_name_frame sampleStore 2 "beta").2 1 (by decide)⟩

/-- Witness for C4 at the concrete sample store: updating twice with a
fresh name leaves exactly one occurrence of it. -/
theorem update_name_idem_witness :
    ((sampleStore.update_name 1 "beta").update_name 1 "beta" =
      sampleStore.update_name 1 "beta") ∧
    ∀ r', lookupKey
        ((sampleStore.update_name 1 "beta").update_name 1 "beta").records
        1 = some r' →
      r'.previous_names.count "beta" = 1 :=
  ⟨(update_name_idem sampleStore 1 "beta").1,
   (update_name_idem sampleStore 1 "beta").2.1 sampleRecord rfl
     (by decide)⟩

/-- A persisted record object with one field removed (a file written
without that field). -/
def removeField (key : String) (fields : List (String × Json)) :
    List (String × Json) :=
  fields.filter fun kv => kv.1 ≠ key

/-- C9: Parsing a record object with a missing field succeeds and falls
back to the default for that field: an empty object for `custom_data`,
`Player` for `verdict`, the empty sequence for `previous_names`, and the
current time for `modified` and `created`; an object with all fields
missing parses to the all-default record. -/
theorem decode_missing_fields (now : Nat) (r : PlayerRecord) :
    decodeRecord now (.obj []) = some (PlayerRecord.defaultRecord now) ∧
    decodeRecord now (.obj (removeField "custom_data" (recordFields r))) =
      some { r with custom_data := default_custom_data } ∧
    decodeRecord now (.obj (removeField "verdict" (recordFields r))) =
      some { r with verdict := .Player } ∧
    decodeRecord now (.obj (removeField "previous_names" (recordFields r))) =
      some { r with previous_names := [] } ∧
    decodeRecord now (.obj (removeField "modified" (recordFields r))) =
      some { r with modified := now } ∧
    decodeRecord now (.obj (removeField "created" (recordFields r))) =
      some { r with created := now } := by
  refine ⟨rfl, ?_, ?_, ?_, ?_, ?_⟩ <;>
    simp [decodeRecord, removeField, recordFields, getField,
      verdictOfString_verdictString, decodeStrings_map_str, dateToJson,
      dateFromJson, PlayerRecord.defaultRecord, Verdict.default,
      default_custom_data]

/-- An unrecognized verdict name is rejected by the derived `Verdict`
deserializer. -/
theorem verdictOfString_not_listed (s : String)
    (h : s ∉ ["Player", "Bot", "Suspicious", "Cheater", "Trusted"]) :
    verdictOfString s = none := by
  unfold verdictOfString
  split <;> simp_all

/-- A record object whose `verdict` field is present (anywhere among its
fields) but not one of the five names fails to parse. -/
theorem decodeRecord_bad_verdict (now : Nat) (s : String)
    (rfields : List (String × Json))
    (hv : getField rfields "verdict" = some (.str s))
    (h : s ∉ ["Player", "Bot", "Suspicious", "Cheater", "Trusted"]) :
    decodeRecord now (.obj rfields) = none := by
  simp [decodeRecord, hv, verdictOfString_not_listed s h]

/-- One undecodable record anywhere in the map fails the whole map, no
matter which other entries (valid or not) surround it. -/
theorem decodeRecords_mem_fail (now : Nat) :
    ∀ (entries : List (String × Json)) (acc : List (Nat × PlayerRecord))
      (ks : String) (jv : Json), (ks, jv) ∈ entries →
      decodeRecord now jv = none → decodeRecords now entries acc = none := by
  intro entries
  induction entries with
  | nil =>
    intro acc ks jv hmem
    exact absurd hmem (List.not_mem_nil _)
  | cons e rest ih =>
    intro acc ks jv hmem hbad
    obtain ⟨ks', jv'⟩ := e
    rcases List.mem_cons.mp hmem with heq | hmem'
    · rw [Prod.mk.injEq] at heq
      obtain ⟨h1, h2⟩ := heq
      subst h1
      subst h2
      simp only [decodeRecords, hbad]
      cases parseNatKey ks <;> rfl
    · simp only [decodeRecords]
      cases hpk : parseNatKey ks' with
      | none => rfl
      | some k =>
        cases hdr : decodeRecord now jv' with
        | none => rfl
        | some r => exact ih (insertRecord acc k r) ks jv hmem' hbad

/-- C10: Any file whose records map contains, under any key and among any
other entries, a record whose `verdict` field is present but not exactly
one of the five case-sensitive names fails `load_from` with the format
error for the whole file (the bad verdict is not defaulted, the other
records are not salvaged), and `load_or_create` on such a file aborts the
process. -/
theorem bad_verdict_aborts (fs : FS) (now : Nat) (p : String)
    (tfields entries rfields : List (String × Json)) (ks s : String)
    (h : s ∉ ["Player", "Bot", "Suspicious", "Cheater", "Trusted"])
    (hget : getField tfields "records" = some (.obj entries))
    (hmem : (ks, Json.obj rfields) ∈ entries)
    (hv : getField rfields "verdict" = some (.str s))
    (hfs : fs p = .content (.obj tfields)) :
    load_from fs now p = .error (.json p) ∧
    load_or_create fs now p = none := by
  have hmap : decodeRecords now entries [] = none :=
    decodeRecords_mem_fail now entries [] ks (.obj rfields) hmem
      (decodeRecord_bad_verdict now s rfields hv h)
  have hstore : decodeStore now (.obj tfields) = none := by
    simp [decodeStore, hget, hmap]
  have hload : load_from fs now p = .error (.json p) := by
    unfold load_from
    rw [hfs]
    simp only []
    rw [hstore]
  refine ⟨hload, ?_⟩
  unfold load_or_create
  rw [hload]

/-- Witness for C10 on a multi-record file: one otherwise-valid record
plus one whose verdict is the lowercase name `"player"`; the whole file
fails with the format error and startup aborts. -/
theorem bad_verdict_aborts_witness :
    load_from
      (fun _ => .content (.obj [("records",
        .obj [("2", .obj []),
              ("1", .obj [("custom_data", .null),
                          ("verdict", .str "player")])])]))
      0 "w" = .error (.json "w") ∧
    load_or_create
      (fun _ => .content (.obj [("records",
        .obj [("2", .obj []),
              ("1", .obj [("custom_data", .null),
                          ("verdict", .str "player")])])]))
      0 "w" = none :=
  bad_verdict_aborts
    (fun _ => .content (.obj [("records",
      .obj [("2", .obj []),
            ("1", .obj [("custom_data", .null),
                        ("verdict", .str "player")])])]))
    0 "w"
    [("records",
      .obj [("2", .obj []),
            ("1", .obj [("custom_data", .null),
                        ("verdict", .str "player")])])]
    [("2", .obj []),
     ("1", .obj [("custom_data", .null), ("verdict", .str "player")])]
    [("custom_data", .null), ("verdict", .str "player")]
    "1" "player" (by decide) rfl
    (List.mem_cons_of_mem _ (List.mem_cons_self _ _)) rfl rfl

/-- C6: `is_empty` is true exactly when the verdict is the neutral
`Player` and `custom_data` is null, an empty object, an empty array or an
empty string; in particular it is true on a freshly default-constructed
record, and false as soon as the verdict is non-neutral or `custom_data`
is a non-empty object, array or string. -/
theorem is_empty_iff :
    (∀ r : PlayerRecord, r.is_empty = true ↔
      (r.verdict = .Player ∧
        (r.custom_data = .null ∨ r.custom_data = .obj [] ∨
          r.custom_data = .arr [] ∨ r.custom_data = .str ""))) ∧
    ∀ now, (PlayerRecord.defaultRecord now).is_empty = true := by
  constructor
  · intro r
    obtain ⟨cd, v, names, m, c⟩ := r
    cases v <;> cases cd <;>
      simp [PlayerRecord.is_empty, Json.is_null, Json.as_object,
        Json.as_array, Json.as_str, Option.any, List.isEmpty_iff,
        String.isEmpty_iff]
  · intro now
    rfl

end PlayerRecordsSpec
